import Mathlib

/-!
Shallow embedding of `owfmodules/avrisp/eeprom_erase.py` (class `EepromErase`).

The module drives the AVR ISP protocol over SPI to erase an EEPROM:
`wait_poll_eeprom` poll-verifies one byte, `erase` sweeps the address space,
`process` resolves the device and configures the transport, `run` wraps
everything in the top-level exception handler.

The embedding makes the externally observable behaviour explicit:
every SPI transmit/receive, reset-line assignment, settle delay, deadline
evaluation and log call is recorded as an `Event` in a trace.  The device and
the wall clock are an explicit environment: for each address, a `PollRun`
gives the value of `time.time()` when the poll loop starts and, for each loop
iteration, the byte read back and the value of `time.time()` at the deadline
test of that iteration.  Python exceptions (`struct.error` from
`struct.pack(">H", addr)` for addresses that do not fit 16 bits, `ValueError`
from `int(s, 16)` on a bad hexadecimal string) are the `Res.exn` outcome;
`Res.stuck` marks an environment that does not decide the poll loop (the
Python loop would still be running).
-/

namespace EepromErase

/-- Python exceptions that the embedded code can raise. -/
inductive PyExn where
  | structError
  | valueError
deriving DecidableEq

/-- Log levels used by the module (`self.logger.INFO` etc.). -/
inductive LogLevel where
  | info
  | error
  | success
deriving DecidableEq

/-- The log messages the module emits, with their context. -/
inductive LogMsg where
  | enablingMemAccess
  | erasingStart
  | timeoutAt (addr : Nat)
  | eraseSuccess
  | exceptionLogged (e : PyExn)
deriving DecidableEq

/-- One observable event of a run. -/
inductive Event where
  | transmit (data : List Nat)
  | receive (data : List Nat)
  | setReset (level : Nat)
  | sleep (ms : Nat)
  | deadlineCheck (expired : Bool)
  | log (lvl : LogLevel) (msg : LogMsg)
deriving DecidableEq

/-- Outcome of an embedded call: normal return, raised exception, or an
environment that does not decide the poll loop. -/
inductive Res (α : Type) where
  | ok (a : α)
  | exn (e : PyExn)
  | stuck
deriving DecidableEq

/-- One iteration of the poll loop, as seen from the environment: the byte
returned by `spi_interface.receive(1)[0]` and the value of `time.time()` at
the deadline test of that iteration. -/
structure PollStep where
  readByte : Nat
  now : Nat
deriving DecidableEq

/-- Environment of one `wait_poll_eeprom` call: the value of `time.time()`
when the call starts (the deadline is `start + 10`) and the iterations the
device produces. -/
structure PollRun where
  start : Nat
  steps : List PollStep
deriving DecidableEq

/-- The device profile returned by the `DeviceID` module: the EEPROM size is
a hexadecimal string, parsed by `int(device["eeprom_size"], 16)`. -/
structure Device where
  eeprom_size : String
deriving DecidableEq

/-- `read_cmd = bytes A0` -/
def read_cmd : List Nat := [0xA0]

/-- `write_cmd = bytes C0` -/
def write_cmd : List Nat := [0xC0]

/-- `enable_mem_access_cmd = bytes AC 53 00 00` -/
def enable_mem_access_cmd : List Nat := [0xAC, 0x53, 0x00, 0x00]

/-- `struct.pack(">H", n)`: the 16-bit big-endian encoding, raising
`struct.error` (modelled as `none`) when `n` does not fit. -/
def packBE16 (n : Nat) : Option (List Nat) :=
  if n < 65536 then some [n / 256, n % 256] else none

/-- Value of one hexadecimal digit character, `none` on a non-digit. -/
def hexDigit (c : Char) : Option Nat :=
  if 48 ≤ c.toNat ∧ c.toNat ≤ 57 then some (c.toNat - 48)
  else if 65 ≤ c.toNat ∧ c.toNat ≤ 70 then some (c.toNat - 55)
  else if 97 ≤ c.toNat ∧ c.toNat ≤ 102 then some (c.toNat - 87)
  else none

/-- `int(s, 16)` on plain hexadecimal strings: `none` models the
`ValueError` raised on an empty or non-hexadecimal string. -/
def parseHex (s : String) : Option Nat :=
  match s.data with
  | [] => none
  | cs => cs.foldl (fun acc c =>
      match acc, hexDigit c with
      | some n, some d => some (n * 16 + d)
      | _, _ => none) (some 0)

/-- Worker for `wait_poll_eeprom`, recursing over the iterations supplied by
the environment.  Per iteration the code transmits `read_cmd ++ pack(addr)`,
receives one byte, first compares it with the expected byte (returning `True`
at once on a match, with no deadline evaluation), and only then tests
`time.time() > timeout`. -/
def wait_poll_go (byte addr timeout : Nat) : List PollStep → Res Bool × List Event
  | [] => (Res.stuck, [])
  | s :: rest =>
    match packBE16 addr with
    | none => (Res.exn PyExn.structError, [])
    | some ab =>
      let evs := [Event.transmit (read_cmd ++ ab), Event.receive [s.readByte]]
      if s.readByte = byte then (Res.ok true, evs)
      else if timeout < s.now then (Res.ok false, evs ++ [Event.deadlineCheck true])
      else
        let q := wait_poll_go byte addr timeout rest
        (q.1, evs ++ Event.deadlineCheck false :: q.2)

/-- `EepromErase.wait_poll_eeprom(spi_interface, byte, byte_addr)`:
`timeout = time.time() + 10`, then the busy-poll loop. -/
def wait_poll_eeprom (byte byte_addr : Nat) (r : PollRun) : Res Bool × List Event :=
  wait_poll_go byte byte_addr (r.start + 10) r.steps

/-- The `for addr in range(0, eeprom_size)` loop inside `erase`: transmit
`write_cmd ++ pack(addr) ++ byte FF`, then poll-verify; on a poll failure log
the failing address and return `False`; propagate a raised exception. -/
def eraseLoop (pollEnv : Nat → PollRun) : List Nat → Res Bool × List Event
  | [] => (Res.ok true, [])
  | addr :: rest =>
    match packBE16 addr with
    | none => (Res.exn PyExn.structError, [])
    | some ab =>
      let wev := Event.transmit (write_cmd ++ ab ++ [0xFF])
      let p := wait_poll_eeprom 0xFF addr (pollEnv addr)
      match p.1 with
      | Res.ok true =>
        let q := eraseLoop pollEnv rest
        (q.1, wev :: (p.2 ++ q.2))
      | Res.ok false =>
        (Res.ok false, wev :: (p.2 ++ [Event.log LogLevel.error (LogMsg.timeoutAt addr)]))
      | Res.exn e => (Res.exn e, wev :: p.2)
      | Res.stuck => (Res.stuck, wev :: p.2)

/-- The fixed entry sequence of `erase`: `reset.status = 0`, the info log,
`spi_interface.transmit(enable_mem_access_cmd)`, `time.sleep(0.5)` (500 ms),
and the info log that precedes the sweep. -/
def sessionBeginTrace : List Event :=
  [Event.setReset 0,
   Event.log LogLevel.info LogMsg.enablingMemAccess,
   Event.transmit enable_mem_access_cmd,
   Event.sleep 500,
   Event.log LogLevel.info LogMsg.erasingStart]

/-- `EepromErase.erase(spi_interface, reset, device)`: drive reset low, enable
memory access, settle, sweep every address; only the successful exit drives
reset high again (`reset.status = 1`) before returning `True`. -/
def erase (pollEnv : Nat → PollRun) (device : Device) : Res Bool × List Event :=
  match parseHex device.eeprom_size with
  | none => (Res.exn PyExn.valueError, sessionBeginTrace)
  | some size =>
    let p := eraseLoop pollEnv (List.range size)
    if p.1 = Res.ok true then
      (Res.ok true, sessionBeginTrace ++ p.2 ++
        [Event.setReset 1, Event.log LogLevel.success LogMsg.eraseSuccess])
    else
      (p.1, sessionBeginTrace ++ p.2)

/-- `EepromErase.process()`: if the device resolver returned `None`, return
`None` at once with no transport activity; otherwise configure the transport,
set `reset.status = 1` (reset is active-low) and call `erase`. -/
def process (pollEnv : Nat → PollRun) (device : Option Device) :
    Res (Option Bool) × List Event :=
  match device with
  | none => (Res.ok none, [])
  | some d =>
    let p := erase pollEnv d
    (match p.1 with
     | Res.ok b => Res.ok (some b)
     | Res.exn e => Res.exn e
     | Res.stuck => Res.stuck,
     Event.setReset 1 :: p.2)

/-- `EepromErase.run(return_value)`: connect (modelled by the `connected`
flag), call `process` inside `try`, return its status when `return_value` is
set; any exception is caught, logged, and the function falls through to an
implicit `return None`. -/
def run (pollEnv : Nat → PollRun) (connected return_value : Bool)
    (device : Option Device) : Res (Option Bool) × List Event :=
  if connected then
    let p := process pollEnv device
    match p.1 with
    | Res.ok status => (Res.ok (if return_value then status else none), p.2)
    | Res.exn e => (Res.ok none, p.2 ++ [Event.log LogLevel.error (LogMsg.exceptionLogged e)])
    | Res.stuck => (Res.stuck, p.2)
  else (Res.ok none, [])

/-! ### Trace observers -/

/-- The payload of an EEPROM-write transmit (first byte `0xC0`), else `none`. -/
def writeEvData (e : Event) : Option (List Nat) :=
  match e with
  | Event.transmit (c :: rest) => if c = 192 then some (c :: rest) else none
  | _ => none

/-- The payload of an EEPROM-read transmit (first byte `0xA0`), else `none`. -/
def readEvData (e : Event) : Option (List Nat) :=
  match e with
  | Event.transmit (c :: rest) => if c = 160 then some (c :: rest) else none
  | _ => none

/-- The address carried by an EEPROM-write transmit, else `none`. -/
def writeEvAddr (e : Event) : Option Nat :=
  match e with
  | Event.transmit (c :: hi :: lo :: _) => if c = 192 then some (hi * 256 + lo) else none
  | _ => none

/-- All EEPROM-write commands of a trace, in order. -/
def writeTransmits (t : List Event) : List (List Nat) := t.filterMap writeEvData

/-- All EEPROM-read commands of a trace, in order. -/
def readTransmits (t : List Event) : List (List Nat) := t.filterMap readEvData

/-- The addresses of all EEPROM-write commands of a trace, in order. -/
def writeAddrs (t : List Event) : List Nat := t.filterMap writeEvAddr

/-- Whether an event is an evaluation of the poll deadline. -/
def isDeadlineCheck (e : Event) : Bool :=
  match e with
  | Event.deadlineCheck _ => true
  | _ => false

/-- Number of deadline evaluations in a trace. -/
def deadlineCount (t : List Event) : Nat := t.countP isDeadlineCheck

/-- Whether an event is a receive of a byte other than the expected one. -/
def badReceive (byte : Nat) (e : Event) : Bool :=
  match e with
  | Event.receive l => if l = [byte] then false else true
  | _ => false

/-- Number of non-matching receives in a trace. -/
def badReceiveCount (byte : Nat) (t : List Event) : Nat := t.countP (badReceive byte)

/-- The reset-line level after a trace, starting from `init`. -/
def finalReset (init : Nat) (t : List Event) : Nat :=
  t.foldl (fun s e => match e with | Event.setReset l => l | _ => s) init

/-! ### Concrete environments and devices used by witnesses -/

/-- Every poll succeeds on its first read-back. -/
def envAllOk : Nat → PollRun := fun _ => ⟨0, [⟨255, 0⟩]⟩

/-- Every poll reads a wrong byte and is already past the deadline. -/
def envFailAll : Nat → PollRun := fun _ => ⟨0, [⟨0, 11⟩]⟩

/-- Polls succeed immediately except at address `k`, which times out. -/
def envFailAt (k : Nat) : Nat → PollRun :=
  fun a => if a = k then ⟨0, [⟨0, 11⟩]⟩ else ⟨0, [⟨255, 0⟩]⟩

/-- A device whose EEPROM size parses to `0x200` = 512 bytes. -/
def dev512 : Device := ⟨"200"⟩

/-- A device whose EEPROM size parses to 8 bytes. -/
def dev8 : Device := ⟨"8"⟩

/-- A device whose EEPROM size string is not hexadecimal. -/
def devBadHex : Device := ⟨"zz"⟩

/-- A device whose EEPROM size parses to `0x20000` = 131072 > 65536 bytes. -/
def devBig : Device := ⟨"20000"⟩

/-- A poll run that reads wrong bytes and crosses the deadline on its second
iteration. -/
def pollRunTimeout : PollRun := ⟨0, [⟨0, 5⟩, ⟨1, 11⟩]⟩

/-- A poll run whose first read-back already matches `0xFF`. -/
def pollRunMatch : PollRun := ⟨0, [⟨255, 0⟩]⟩

/-! ### Basic lemmas about the building blocks -/

lemma packBE16_of_lt (a : Nat) (h : a < 65536) :
    packBE16 a = some [a / 256, a % 256] := by
  simp [packBE16, h]

lemma packBE16_of_ge (a : Nat) (h : 65536 ≤ a) : packBE16 a = none := by
  simp [packBE16, Nat.not_lt.mpr h]

lemma writeTransmits_append (a b : List Event) :
    writeTransmits (a ++ b) = writeTransmits a ++ writeTransmits b :=
  List.filterMap_append a b writeEvData

lemma readTransmits_append (a b : List Event) :
    readTransmits (a ++ b) = readTransmits a ++ readTransmits b :=
  List.filterMap_append a b readEvData

lemma writeAddrs_append (a b : List Event) :
    writeAddrs (a ++ b) = writeAddrs a ++ writeAddrs b :=
  List.filterMap_append a b writeEvAddr

lemma finalReset_append (i : Nat) (a b : List Event) :
    finalReset i (a ++ b) = finalReset (finalReset i a) b :=
  List.foldl_append _ i a b

/-- A trace without reset-line assignments leaves the line where it was. -/
lemma finalReset_of_no_setReset (i : Nat) (t : List Event)
    (h : ∀ lv, Event.setReset lv ∉ t) : finalReset i t = i := by
  induction t with
  | nil => rfl
  | cons e rest ih =>
    have hrest : ∀ lv, Event.setReset lv ∉ rest := fun lv hm =>
      h lv (List.mem_cons_of_mem _ hm)
    cases e with
    | setReset lv => exact absurd (List.mem_cons_self _ _) (h lv)
    | transmit d => simpa [finalReset] using ih hrest
    | receive d => simpa [finalReset] using ih hrest
    | sleep ms => simpa [finalReset] using ih hrest
    | deadlineCheck b => simpa [finalReset] using ih hrest
    | log lvl m => simpa [finalReset] using ih hrest

/-! ### Lemmas about the poll verifier -/

/-- A poll call that returns (rather than raising or running out of
environment) was called with an address that fits 16 bits. -/
lemma wait_poll_go_ok_lt (byte addr timeout : Nat) (steps : List PollStep) (b : Bool)
    (h : (wait_poll_go byte addr timeout steps).1 = Res.ok b) : addr < 65536 := by
  cases steps with
  | nil => simp [wait_poll_go] at h
  | cons s rest =>
    by_cases ha : addr < 65536
    · exact ha
    · exfalso
      simp [wait_poll_go, packBE16_of_ge addr (Nat.le_of_not_lt ha)] at h

lemma wait_poll_ok_lt (byte addr : Nat) (r : PollRun) (b : Bool)
    (h : (wait_poll_eeprom byte addr r).1 = Res.ok b) : addr < 65536 :=
  wait_poll_go_ok_lt byte addr (r.start + 10) r.steps b h

/-- Every event of a poll trace is the read command for the polled address,
a one-byte receive, or a deadline evaluation. -/
lemma wait_poll_go_mem (byte addr timeout : Nat) (steps : List PollStep) (e : Event)
    (he : e ∈ (wait_poll_go byte addr timeout steps).2) :
    e = Event.transmit [160, addr / 256, addr % 256] ∨
    (∃ b, e = Event.receive [b]) ∨ (∃ b, e = Event.deadlineCheck b) := by
  induction steps with
  | nil => simp [wait_poll_go] at he
  | cons s rest ih =>
    by_cases ha : addr < 65536
    · have hp := packBE16_of_lt addr ha
      by_cases hm : s.readByte = byte
      · simp [wait_poll_go, hp, hm, read_cmd] at he
        rcases he with he | he
        · exact Or.inl he
        · exact Or.inr (Or.inl ⟨byte, he⟩)
      · by_cases ht : timeout < s.now
        · simp [wait_poll_go, hp, hm, ht, read_cmd] at he
          rcases he with he | he | he
          · exact Or.inl he
          · exact Or.inr (Or.inl ⟨s.readByte, he⟩)
          · exact Or.inr (Or.inr ⟨true, he⟩)
        · simp [wait_poll_go, hp, hm, ht, read_cmd] at he
          rcases he with he | he | he | he
          · exact Or.inl he
          · exact Or.inr (Or.inl ⟨s.readByte, he⟩)
          · exact Or.inr (Or.inr ⟨false, he⟩)
          · exact ih he
    · simp [wait_poll_go, packBE16_of_ge addr (Nat.le_of_not_lt ha)] at he

/-- The poll verifier transmits only the read command. -/
lemma wait_poll_transmits (byte addr : Nat) (r : PollRun) (d : List Nat)
    (hd : Event.transmit d ∈ (wait_poll_eeprom byte addr r).2) :
    d = [160, addr / 256, addr % 256] := by
  rcases wait_poll_go_mem byte addr (r.start + 10) r.steps (Event.transmit d) hd with
    h | ⟨b, h⟩ | ⟨b, h⟩
  · injection h
  · simp at h
  · simp at h

/-- The poll verifier issues no EEPROM-write command. -/
lemma wait_poll_writeTransmits (byte addr : Nat) (r : PollRun) :
    writeTransmits (wait_poll_eeprom byte addr r).2 = [] := by
  refine List.filterMap_eq_nil_iff.mpr fun e he => ?_
  rcases wait_poll_go_mem byte addr (r.start + 10) r.steps e he with h | ⟨b, h⟩ | ⟨b, h⟩ <;>
    subst h <;> simp [writeEvData]

/-- The poll verifier writes no address. -/
lemma wait_poll_writeAddrs (byte addr : Nat) (r : PollRun) :
    writeAddrs (wait_poll_eeprom byte addr r).2 = [] := by
  refine List.filterMap_eq_nil_iff.mpr fun e he => ?_
  rcases wait_poll_go_mem byte addr (r.start + 10) r.steps e he with h | ⟨b, h⟩ | ⟨b, h⟩ <;>
    subst h <;> simp [writeEvAddr]

/-- The poll verifier does not touch the reset line. -/
lemma wait_poll_no_setReset (byte addr : Nat) (r : PollRun) (lv : Nat) :
    Event.setReset lv ∉ (wait_poll_eeprom byte addr r).2 := by
  intro hm
  rcases wait_poll_go_mem byte addr (r.start + 10) r.steps (Event.setReset lv) hm with
    h | ⟨b, h⟩ | ⟨b, h⟩ <;> simp at h

/-- A poll call that returned issued at least one read command. -/
lemma wait_poll_ok_reads (byte addr : Nat) (r : PollRun) (b : Bool)
    (h : (wait_poll_eeprom byte addr r).1 = Res.ok b) :
    1 ≤ (readTransmits (wait_poll_eeprom byte addr r).2).length := by
  have ha : addr < 65536 := wait_poll_ok_lt byte addr r b h
  have hp := packBE16_of_lt addr ha
  rw [wait_poll_eeprom] at h ⊢
  cases hsteps : r.steps with
  | nil => rw [hsteps] at h; simp [wait_poll_go] at h
  | cons s rest =>
    by_cases hm : s.readByte = byte
    · simp [wait_poll_go, hp, hm, readTransmits, readEvData, read_cmd]
    · by_cases ht : r.start + 10 < s.now
      · simp [wait_poll_go, hp, hm, ht, readTransmits, readEvData, read_cmd]
      · simp [wait_poll_go, hp, hm, ht, readTransmits, readEvData, read_cmd,
          List.filterMap_append]

/-- When the first read-back matches, the poll returns `True` after exactly
one transmit/receive pair, with no deadline evaluation. -/
lemma wait_poll_go_first_match (byte addr timeout : Nat) (s : PollStep)
    (rest : List PollStep) (ha : addr < 65536) (hm : s.readByte = byte) :
    wait_poll_go byte addr timeout (s :: rest) =
      (Res.ok true,
       [Event.transmit [160, addr / 256, addr % 256], Event.receive [byte]]) := by
  simp [wait_poll_go, packBE16_of_lt addr ha, hm, read_cmd]

/-- In every poll loop iteration the byte comparison comes first: a deadline
evaluation happens exactly once per non-matching receive. -/
lemma wait_poll_go_deadline_count (byte addr timeout : Nat) (steps : List PollStep) :
    deadlineCount (wait_poll_go byte addr timeout steps).2 =
      badReceiveCount byte (wait_poll_go byte addr timeout steps).2 := by
  induction steps with
  | nil => simp [wait_poll_go, deadlineCount, badReceiveCount]
  | cons s rest ih =>
    by_cases ha : addr < 65536
    · have hp := packBE16_of_lt addr ha
      by_cases hm : s.readByte = byte
      · simp [wait_poll_go, hp, hm, deadlineCount, badReceiveCount,
          isDeadlineCheck, badReceive, List.countP_cons]
      · by_cases ht : timeout < s.now
        · simp [wait_poll_go, hp, hm, ht, deadlineCount, badReceiveCount,
            isDeadlineCheck, badReceive, List.countP_cons, List.countP_append]
        · simp only [wait_poll_go, hp, hm, ht] at ih ⊢
          simp [deadlineCount, badReceiveCount, isDeadlineCheck, badReceive,
            List.countP_cons, List.countP_append, hm] at ih ⊢
          omega
    · simp [wait_poll_go, packBE16_of_ge addr (Nat.le_of_not_lt ha),
        deadlineCount, badReceiveCount]

/-- A poll whose read-backs never match and whose clock crosses the deadline
returns `False` at the first deadline evaluation past the deadline; all
earlier deadline evaluations were negative. -/
lemma wait_poll_go_never_match (byte addr timeout : Nat) (steps : List PollStep)
    (ha : addr < 65536)
    (hne : ∀ s ∈ steps, s.readByte ≠ byte)
    (hto : ∃ s ∈ steps, timeout < s.now) :
    (wait_poll_go byte addr timeout steps).1 = Res.ok false ∧
    ∃ t, (wait_poll_go byte addr timeout steps).2 = t ++ [Event.deadlineCheck true] ∧
      ∀ b, Event.deadlineCheck b ∈ t → b = false := by
  induction steps with
  | nil => simp at hto
  | cons s rest ih =>
    have hp := packBE16_of_lt addr ha
    have hm : s.readByte ≠ byte := hne s (List.mem_cons_self _ _)
    by_cases ht : timeout < s.now
    · refine ⟨by simp [wait_poll_go, hp, hm, ht], ?_⟩
      refine ⟨[Event.transmit (read_cmd ++ [addr / 256, addr % 256]),
               Event.receive [s.readByte]], ?_, ?_⟩
      · simp [wait_poll_go, hp, hm, ht]
      · intro b hb
        simp at hb
    · have hto2 : ∃ s2 ∈ rest, timeout < s2.now := by
        rcases hto with ⟨s2, hs2, hn2⟩
        rcases List.mem_cons.mp hs2 with h | h
        · exact absurd (h ▸ hn2) ht
        · exact ⟨s2, h, hn2⟩
      have hne2 : ∀ s2 ∈ rest, s2.readByte ≠ byte :=
        fun s2 h => hne s2 (List.mem_cons_of_mem _ h)
      obtain ⟨h1, t, htr, hdc⟩ := ih hne2 hto2
      refine ⟨by simp [wait_poll_go, hp, hm, ht, h1], ?_⟩
      refine ⟨Event.transmit (read_cmd ++ [addr / 256, addr % 256]) ::
              Event.receive [s.readByte] :: Event.deadlineCheck false :: t, ?_, ?_⟩
      · simp [wait_poll_go, hp, hm, ht, htr]
      · intro b hb
        rcases List.mem_cons.mp hb with h | hb
        · simp at h
        rcases List.mem_cons.mp hb with h | hb
        · simp at h
        rcases List.mem_cons.mp hb with h | hb
        · simpa using h
        · exact hdc b hb

/-! ### Lemmas about the erase sweep -/

/-- The write event transmitted for address `a`, as built by the loop body. -/
def writeEvent (a : Nat) : Event :=
  Event.transmit (write_cmd ++ [a / 256, a % 256] ++ [255])

lemma writeEvData_writeEvent (a : Nat) :
    writeEvData (writeEvent a) = some [192, a / 256, a % 256, 255] := by
  simp [writeEvData, writeEvent, write_cmd]

lemma readEvData_writeEvent (a : Nat) : readEvData (writeEvent a) = none := by
  simp [readEvData, writeEvent, write_cmd]

lemma writeEvAddr_writeEvent (a : Nat) : writeEvAddr (writeEvent a) = some a := by
  simp [writeEvAddr, writeEvent, write_cmd]
  have := Nat.div_add_mod a 256
  omega

lemma writeTransmits_cons_some (e : Event) (d : List Nat) (t : List Event)
    (h : writeEvData e = some d) : writeTransmits (e :: t) = d :: writeTransmits t := by
  simp [writeTransmits, List.filterMap_cons, h]

lemma readTransmits_cons_none (e : Event) (t : List Event)
    (h : readEvData e = none) : readTransmits (e :: t) = readTransmits t := by
  simp [readTransmits, List.filterMap_cons, h]

lemma writeAddrs_cons_some (e : Event) (a : Nat) (t : List Event)
    (h : writeEvAddr e = some a) : writeAddrs (e :: t) = a :: writeAddrs t := by
  simp [writeAddrs, List.filterMap_cons, h]

/-- Trace of the loop on `a :: rest` when the poll for `a` succeeds. -/
lemma eraseLoop_cons_ok (env : Nat → PollRun) (a : Nat) (rest : List Nat)
    (hp : packBE16 a = some [a / 256, a % 256])
    (hq : (wait_poll_eeprom 255 a (env a)).1 = Res.ok true) :
    eraseLoop env (a :: rest) =
      ((eraseLoop env rest).1,
       writeEvent a :: ((wait_poll_eeprom 255 a (env a)).2 ++ (eraseLoop env rest).2)) := by
  simp [eraseLoop, hp, hq, writeEvent]

/-- Trace of the loop on `a :: rest` when the poll for `a` times out. -/
lemma eraseLoop_cons_fail (env : Nat → PollRun) (a : Nat) (rest : List Nat)
    (hp : packBE16 a = some [a / 256, a % 256])
    (hq : (wait_poll_eeprom 255 a (env a)).1 = Res.ok false) :
    eraseLoop env (a :: rest) =
      (Res.ok false,
       writeEvent a :: ((wait_poll_eeprom 255 a (env a)).2 ++
         [Event.log LogLevel.error (LogMsg.timeoutAt a)])) := by
  simp [eraseLoop, hp, hq, writeEvent]

/-- The loop raises `struct.error` at once on an address past 16 bits. -/
lemma eraseLoop_cons_oversize (env : Nat → PollRun) (a : Nat) (rest : List Nat)
    (ha : 65536 ≤ a) :
    eraseLoop env (a :: rest) = (Res.exn PyExn.structError, []) := by
  simp [eraseLoop, packBE16_of_ge a ha]

/-- The sweep loop never touches the reset line. -/
lemma eraseLoop_no_setReset (env : Nat → PollRun) (addrs : List Nat) (lv : Nat) :
    Event.setReset lv ∉ (eraseLoop env addrs).2 := by
  induction addrs with
  | nil => simp [eraseLoop]
  | cons a rest ih =>
    by_cases ha : a < 65536
    · have hp := packBE16_of_lt a ha
      intro hmem
      cases hq : (wait_poll_eeprom 255 a (env a)).1 with
      | ok b =>
        cases b with
        | true =>
          rw [eraseLoop_cons_ok env a rest hp hq] at hmem
          simp only [List.mem_cons, List.mem_append] at hmem
          rcases hmem with h | h | h
          · simp [writeEvent, write_cmd] at h
          · exact wait_poll_no_setReset 255 a (env a) lv h
          · exact ih h
        | false =>
          rw [eraseLoop_cons_fail env a rest hp hq] at hmem
          simp only [List.mem_cons, List.mem_append, List.mem_singleton] at hmem
          rcases hmem with h | h | h
          · simp [writeEvent, write_cmd] at h
          · exact wait_poll_no_setReset 255 a (env a) lv h
          · simp at h
      | exn e =>
        simp only [eraseLoop, hp, hq, List.mem_cons, List.mem_append] at hmem
        rcases hmem with h | h
        · simp [write_cmd] at h
        · exact wait_poll_no_setReset 255 a (env a) lv h
      | stuck =>
        simp only [eraseLoop, hp, hq, List.mem_cons, List.mem_append] at hmem
        rcases hmem with h | h
        · simp [write_cmd] at h
        · exact wait_poll_no_setReset 255 a (env a) lv h
    · rw [eraseLoop_cons_oversize env a rest (Nat.le_of_not_lt ha)]
      simp

/-- A successful sweep wrote every listed address once, in order and in the
wire format `C0, hi, lo, FF`; read back at least once per address; and got a
positive poll verdict for every address. -/
lemma eraseLoop_ok_true_shape (env : Nat → PollRun) (addrs : List Nat)
    (h : (eraseLoop env addrs).1 = Res.ok true) :
    writeTransmits (eraseLoop env addrs).2 =
      addrs.map (fun a => [192, a / 256, a % 256, 255]) ∧
    addrs.length ≤ (readTransmits (eraseLoop env addrs).2).length ∧
    ∀ a ∈ addrs, (wait_poll_eeprom 255 a (env a)).1 = Res.ok true := by
  induction addrs with
  | nil => simp [eraseLoop, writeTransmits, readTransmits]
  | cons a rest ih =>
    by_cases ha : a < 65536
    · have hp := packBE16_of_lt a ha
      cases hq : (wait_poll_eeprom 255 a (env a)).1 with
      | ok b =>
        cases b with
        | true =>
          have heq := eraseLoop_cons_ok env a rest hp hq
          have hrest : (eraseLoop env rest).1 = Res.ok true := by
            rw [heq] at h
            exact h
          obtain ⟨ih1, ih2, ih3⟩ := ih hrest
          refine ⟨?_, ?_, ?_⟩
          · rw [heq]
            rw [show (((eraseLoop env rest).1,
                writeEvent a :: ((wait_poll_eeprom 255 a (env a)).2 ++
                  (eraseLoop env rest).2)) : Res Bool × List Event).2 =
                writeEvent a :: ((wait_poll_eeprom 255 a (env a)).2 ++
                  (eraseLoop env rest).2) from rfl]
            rw [writeTransmits_cons_some _ _ _ (writeEvData_writeEvent a),
              writeTransmits_append, wait_poll_writeTransmits, ih1]
            simp
          · rw [heq]
            have hr := wait_poll_ok_reads 255 a (env a) true hq
            calc (a :: rest).length = rest.length + 1 := by simp [Nat.add_comm]
              _ ≤ (readTransmits (eraseLoop env rest).2).length +
                    (readTransmits (wait_poll_eeprom 255 a (env a)).2).length := by
                    exact Nat.add_le_add ih2 hr
              _ = (readTransmits (writeEvent a ::
                    ((wait_poll_eeprom 255 a (env a)).2 ++ (eraseLoop env rest).2))).length := by
                    rw [readTransmits_cons_none _ _ (readEvData_writeEvent a),
                      readTransmits_append]
                    simp [Nat.add_comm]
          · intro x hx
            rcases List.mem_cons.mp hx with hx | hx
            · exact hx ▸ hq
            · exact ih3 x hx
        | false =>
          rw [eraseLoop_cons_fail env a rest hp hq] at h
          simp at h
      | exn e => simp [eraseLoop, hp, hq] at h
      | stuck => simp [eraseLoop, hp, hq] at h
    · rw [eraseLoop_cons_oversize env a rest (Nat.le_of_not_lt ha)] at h
      simp at h

/-- A sweep over addresses that all fit 16 bits and all poll positively
returns `True`. -/
lemma eraseLoop_all_ok (env : Nat → PollRun) (addrs : List Nat)
    (hlt : ∀ a ∈ addrs, a < 65536)
    (hok : ∀ a ∈ addrs, (wait_poll_eeprom 255 a (env a)).1 = Res.ok true) :
    (eraseLoop env addrs).1 = Res.ok true := by
  induction addrs with
  | nil => simp [eraseLoop]
  | cons a rest ih =>
    have hp := packBE16_of_lt a (hlt a (List.mem_cons_self _ _))
    rw [eraseLoop_cons_ok env a rest hp (hok a (List.mem_cons_self _ _))]
    exact ih (fun x hx => hlt x (List.mem_cons_of_mem _ hx))
      (fun x hx => hok x (List.mem_cons_of_mem _ hx))

/-- A sweep that polls positively up to the first failing address `k` returns
`False`, has written exactly the addresses before `k` and `k` itself, and has
logged the failing address. -/
lemma eraseLoop_abort (env : Nat → PollRun) (pre post : List Nat) (k : Nat)
    (hok : ∀ j ∈ pre, (wait_poll_eeprom 255 j (env j)).1 = Res.ok true)
    (hfail : (wait_poll_eeprom 255 k (env k)).1 = Res.ok false) :
    (eraseLoop env (pre ++ k :: post)).1 = Res.ok false ∧
    writeAddrs (eraseLoop env (pre ++ k :: post)).2 = pre ++ [k] ∧
    Event.log LogLevel.error (LogMsg.timeoutAt k) ∈ (eraseLoop env (pre ++ k :: post)).2 := by
  induction pre with
  | nil =>
    have hk : k < 65536 := wait_poll_ok_lt 255 k (env k) false hfail
    have hp := packBE16_of_lt k hk
    rw [List.nil_append, eraseLoop_cons_fail env k post hp hfail]
    refine ⟨rfl, ?_, ?_⟩
    · rw [show ((Res.ok false,
          writeEvent k :: ((wait_poll_eeprom 255 k (env k)).2 ++
            [Event.log LogLevel.error (LogMsg.timeoutAt k)])) :
          Res Bool × List Event).2 =
          writeEvent k :: ((wait_poll_eeprom 255 k (env k)).2 ++
            [Event.log LogLevel.error (LogMsg.timeoutAt k)]) from rfl]
      rw [writeAddrs_cons_some _ _ _ (writeEvAddr_writeEvent k), writeAddrs_append,
        wait_poll_writeAddrs]
      simp [writeAddrs, writeEvAddr]
    · simp
  | cons j pre2 ih =>
    have hj := hok j (List.mem_cons_self _ _)
    have hjlt : j < 65536 := wait_poll_ok_lt 255 j (env j) true hj
    have hp := packBE16_of_lt j hjlt
    obtain ⟨ih1, ih2, ih3⟩ := ih (fun x hx => hok x (List.mem_cons_of_mem _ hx))
    rw [List.cons_append, eraseLoop_cons_ok env j (pre2 ++ k :: post) hp hj]
    refine ⟨ih1, ?_, ?_⟩
    · rw [show ((((eraseLoop env (pre2 ++ k :: post)).1 : Res Bool),
          writeEvent j :: ((wait_poll_eeprom 255 j (env j)).2 ++
            (eraseLoop env (pre2 ++ k :: post)).2)) : Res Bool × List Event).2 =
          writeEvent j :: ((wait_poll_eeprom 255 j (env j)).2 ++
            (eraseLoop env (pre2 ++ k :: post)).2) from rfl]
      rw [writeAddrs_cons_some _ _ _ (writeEvAddr_writeEvent j), writeAddrs_append,
        wait_poll_writeAddrs, ih2]
      simp
    · simp only [List.mem_cons, List.mem_append]
      exact Or.inr (Or.inr ih3)

/-- A sweep that reaches an address past 16 bits (all earlier addresses
polling positively) raises `struct.error`, having written exactly the earlier
addresses. -/
lemma eraseLoop_oversize (env : Nat → PollRun) (pre post : List Nat) (k : Nat)
    (hk : 65536 ≤ k)
    (hok : ∀ j ∈ pre, (wait_poll_eeprom 255 j (env j)).1 = Res.ok true) :
    (eraseLoop env (pre ++ k :: post)).1 = Res.exn PyExn.structError ∧
    writeAddrs (eraseLoop env (pre ++ k :: post)).2 = pre := by
  induction pre with
  | nil =>
    rw [List.nil_append, eraseLoop_cons_oversize env k post hk]
    exact ⟨rfl, rfl⟩
  | cons j pre2 ih =>
    have hj := hok j (List.mem_cons_self _ _)
    have hjlt : j < 65536 := wait_poll_ok_lt 255 j (env j) true hj
    have hp := packBE16_of_lt j hjlt
    obtain ⟨ih1, ih2⟩ := ih (fun x hx => hok x (List.mem_cons_of_mem _ hx))
    rw [List.cons_append, eraseLoop_cons_ok env j (pre2 ++ k :: post) hp hj]
    refine ⟨ih1, ?_⟩
    rw [show ((((eraseLoop env (pre2 ++ k :: post)).1 : Res Bool),
        writeEvent j :: ((wait_poll_eeprom 255 j (env j)).2 ++
          (eraseLoop env (pre2 ++ k :: post)).2)) : Res Bool × List Event).2 =
        writeEvent j :: ((wait_poll_eeprom 255 j (env j)).2 ++
          (eraseLoop env (pre2 ++ k :: post)).2) from rfl]
    rw [writeAddrs_cons_some _ _ _ (writeEvAddr_writeEvent j), writeAddrs_append,
      wait_poll_writeAddrs, ih2]
    simp

/-- A sweep whose address list contains an address past 16 bits can never
return `True`: either some earlier address fails or the pack raises first. -/
lemma eraseLoop_mem_oversize_not_ok (env : Nat → PollRun) (addrs : List Nat)
    (h : ∃ a ∈ addrs, 65536 ≤ a) :
    (eraseLoop env addrs).1 ≠ Res.ok true := by
  induction addrs with
  | nil => simp at h
  | cons a rest ih =>
    by_cases ha : 65536 ≤ a
    · rw [eraseLoop_cons_oversize env a rest ha]
      simp
    · have h2 : ∃ x ∈ rest, 65536 ≤ x := by
        rcases h with ⟨x, hx, hge⟩
        rcases List.mem_cons.mp hx with h | h
        · exact absurd (h ▸ hge) ha
        · exact ⟨x, h, hge⟩
      have hp := packBE16_of_lt a (Nat.lt_of_not_le ha)
      cases hq : (wait_poll_eeprom 255 a (env a)).1 with
      | ok b =>
        cases b with
        | true =>
          rw [eraseLoop_cons_ok env a rest hp hq]
          exact ih h2
        | false =>
          rw [eraseLoop_cons_fail env a rest hp hq]
          simp
      | exn e => simp [eraseLoop, hp, hq]
      | stuck => simp [eraseLoop, hp, hq]

/-- Splitting `range n` at an interior point `k`. -/
lemma range_split (n k : Nat) (h : k < n) :
    List.range n =
      List.range k ++ k :: ((List.range (n - (k + 1))).map (fun i => (k + 1) + i)) := by
  have h1 : n = (k + 1) + (n - (k + 1)) := by omega
  conv_lhs => rw [h1]
  rw [List.range_add, List.range_succ]
  simp

/-! ### Lemmas about `erase`, `process` and `run` -/

lemma sessionBegin_writeTransmits : writeTransmits sessionBeginTrace = [] := rfl

lemma sessionBegin_readTransmits : readTransmits sessionBeginTrace = [] := rfl

lemma sessionBegin_writeAddrs : writeAddrs sessionBeginTrace = [] := rfl

/-- The session entry drives the reset line low whatever it was before. -/
lemma sessionBegin_finalReset (i : Nat) : finalReset i sessionBeginTrace = 0 := rfl

/-- The success epilogue drives the reset line high whatever it was before. -/
lemma finalReset_epilogue (i : Nat) :
    finalReset i [Event.setReset 1, Event.log LogLevel.success LogMsg.eraseSuccess] = 1 := rfl

lemma erase_of_parse_none (env : Nat → PollRun) (dev : Device)
    (h : parseHex dev.eeprom_size = none) :
    erase env dev = (Res.exn PyExn.valueError, sessionBeginTrace) := by
  simp [erase, h]

lemma erase_of_loop_ok (env : Nat → PollRun) (dev : Device) (size : Nat)
    (hp : parseHex dev.eeprom_size = some size)
    (hl : (eraseLoop env (List.range size)).1 = Res.ok true) :
    erase env dev =
      (Res.ok true, sessionBeginTrace ++ (eraseLoop env (List.range size)).2 ++
        [Event.setReset 1, Event.log LogLevel.success LogMsg.eraseSuccess]) := by
  simp [erase, hp, hl]

lemma erase_of_loop_not_ok (env : Nat → PollRun) (dev : Device) (size : Nat)
    (hp : parseHex dev.eeprom_size = some size)
    (hl : (eraseLoop env (List.range size)).1 ≠ Res.ok true) :
    erase env dev =
      ((eraseLoop env (List.range size)).1,
       sessionBeginTrace ++ (eraseLoop env (List.range size)).2) := by
  simp [erase, hp, hl]

/-- Every erase trace starts with the fixed session-begin sequence. -/
lemma erase_trace_prefix (env : Nat → PollRun) (dev : Device) :
    ∃ x, (erase env dev).2 = sessionBeginTrace ++ x := by
  cases hp : parseHex dev.eeprom_size with
  | none => exact ⟨[], by rw [erase_of_parse_none env dev hp]; simp⟩
  | some size =>
    by_cases hl : (eraseLoop env (List.range size)).1 = Res.ok true
    · refine ⟨(eraseLoop env (List.range size)).2 ++
        [Event.setReset 1, Event.log LogLevel.success LogMsg.eraseSuccess], ?_⟩
      rw [erase_of_loop_ok env dev size hp hl]
      simp
    · exact ⟨(eraseLoop env (List.range size)).2,
        by rw [erase_of_loop_not_ok env dev size hp hl]⟩

lemma writeAddrs_cons_none (e : Event) (t : List Event)
    (h : writeEvAddr e = none) : writeAddrs (e :: t) = writeAddrs t := by
  simp [writeAddrs, List.filterMap_cons, h]

lemma process_of_erase_ok (env : Nat → PollRun) (d : Device) (b : Bool)
    (h : (erase env d).1 = Res.ok b) :
    process env (some d) = (Res.ok (some b), Event.setReset 1 :: (erase env d).2) := by
  simp [process, h]

lemma process_of_erase_exn (env : Nat → PollRun) (d : Device) (e : PyExn)
    (h : (erase env d).1 = Res.exn e) :
    process env (some d) = (Res.exn e, Event.setReset 1 :: (erase env d).2) := by
  simp [process, h]

lemma run_eq_of_process_ok (env : Nat → PollRun) (d : Option Device) (st : Option Bool)
    (h : (process env d).1 = Res.ok st) :
    run env true true d = (Res.ok st, (process env d).2) := by
  simp [run, h]

lemma run_eq_of_process_exn (env : Nat → PollRun) (d : Option Device) (e : PyExn)
    (h : (process env d).1 = Res.exn e) :
    run env true true d = (Res.ok none,
      (process env d).2 ++ [Event.log LogLevel.error (LogMsg.exceptionLogged e)]) := by
  simp [run, h]

lemma run_eq_of_process_stuck (env : Nat → PollRun) (d : Option Device)
    (h : (process env d).1 = Res.stuck) :
    run env true true d = (Res.stuck, (process env d).2) := by
  simp [run, h]

/-- Full description of an aborted run: when the poll verifier first fails at
`k < size` the run returns `False`, wrote exactly addresses `0..k`, and
logged the failing address. -/
lemma erase_abort_full (env : Nat → PollRun) (dev : Device) (size k : Nat)
    (hp : parseHex dev.eeprom_size = some size) (hk : k < size)
    (hok : ∀ j, j < k → (wait_poll_eeprom 255 j (env j)).1 = Res.ok true)
    (hfail : (wait_poll_eeprom 255 k (env k)).1 = Res.ok false) :
    (erase env dev).1 = Res.ok false ∧
    writeAddrs (erase env dev).2 = List.range (k + 1) ∧
    Event.log LogLevel.error (LogMsg.timeoutAt k) ∈ (erase env dev).2 := by
  have hsplit := range_split size k hk
  have hA := eraseLoop_abort env (List.range k)
    ((List.range (size - (k + 1))).map (fun i => (k + 1) + i)) k
    (fun j hj => hok j (List.mem_range.mp hj)) hfail
  rw [← hsplit] at hA
  obtain ⟨hA1, hA2, hA3⟩ := hA
  have hne : (eraseLoop env (List.range size)).1 ≠ Res.ok true := by
    rw [hA1]
    simp
  have h2 : (erase env dev).2 = sessionBeginTrace ++
      (eraseLoop env (List.range size)).2 := by
    rw [erase_of_loop_not_ok env dev size hp hne]
  refine ⟨?_, ?_, ?_⟩
  · have h1 : (erase env dev).1 = (eraseLoop env (List.range size)).1 := by
      rw [erase_of_loop_not_ok env dev size hp hne]
    rw [h1]
    exact hA1
  · rw [h2, writeAddrs_append, sessionBegin_writeAddrs, List.nil_append, hA2,
      ← List.range_succ]
  · rw [h2]
    exact List.mem_append_right _ hA3

/-- A `run` that returns `True` to its caller completed the whole sweep. -/
lemma run_true_inv (env : Nat → PollRun) (dev : Device) (n : Nat)
    (hpn : parseHex dev.eeprom_size = some n)
    (hr : (run env true true (some dev)).1 = Res.ok (some true)) :
    (eraseLoop env (List.range n)).1 = Res.ok true := by
  by_contra hl
  have he : (erase env dev).1 = (eraseLoop env (List.range n)).1 := by
    rw [erase_of_loop_not_ok env dev n hpn hl]
  cases hq : (eraseLoop env (List.range n)).1 with
  | ok b =>
    cases b with
    | true => exact hl hq
    | false =>
      have hpe := process_of_erase_ok env dev false (he.trans hq)
      rw [run_eq_of_process_ok env (some dev) (some false) (by rw [hpe])] at hr
      simp at hr
  | exn e =>
    have hpe := process_of_erase_exn env dev e (he.trans hq)
    rw [run_eq_of_process_exn env (some dev) e (by rw [hpe])] at hr
    simp at hr
  | stuck =>
    have hps : process env (some dev) =
        (Res.stuck, Event.setReset 1 :: (erase env dev).2) := by
      simp [process, he.trans hq]
    rw [run_eq_of_process_stuck env (some dev) (by rw [hps])] at hr
    simp at hr

/-! ### Claim theorems -/

set_option maxRecDepth 100000

/-- Claim C1 as stated is false on the code: on the abort exit path (here
the very first address times out) `erase` returns `False` with the reset
line still `Asserted` (level 0); only the success path deasserts it. -/
theorem erase_timeout_leaves_reset_asserted :
    (erase envFailAll dev8).1 = Res.ok false ∧
    finalReset 1 (erase envFailAll dev8).2 = 0 := by decide

/-- Claim C1 (amended): the reset line ends `Deasserted` (level 1) on the
success exit of an erase run, and ends `Asserted` (level 0) on every other
exit (poll-timeout abort, or an exception escaping after the session began) —
the code has no guaranteed-release step. -/
theorem erase_reset_deasserted_only_on_success (env : Nat → PollRun) (dev : Device) :
    ((erase env dev).1 = Res.ok true → finalReset 1 (erase env dev).2 = 1) ∧
    ((erase env dev).1 ≠ Res.ok true → finalReset 1 (erase env dev).2 = 0) := by
  cases hp : parseHex dev.eeprom_size with
  | none =>
    constructor
    · intro h
      rw [erase_of_parse_none env dev hp] at h
      simp at h
    · intro _
      have h2 : (erase env dev).2 = sessionBeginTrace := by
        rw [erase_of_parse_none env dev hp]
      rw [h2]
      exact sessionBegin_finalReset 1
  | some size =>
    by_cases hl : (eraseLoop env (List.range size)).1 = Res.ok true
    · constructor
      · intro _
        have h2 : (erase env dev).2 = sessionBeginTrace ++
            (eraseLoop env (List.range size)).2 ++
            [Event.setReset 1, Event.log LogLevel.success LogMsg.eraseSuccess] := by
          rw [erase_of_loop_ok env dev size hp hl]
        rw [h2, finalReset_append]
        exact finalReset_epilogue _
      · intro hne
        exfalso
        apply hne
        rw [erase_of_loop_ok env dev size hp hl]
    · constructor
      · intro h
        exfalso
        apply hl
        have h1 : (erase env dev).1 = (eraseLoop env (List.range size)).1 := by
          rw [erase_of_loop_not_ok env dev size hp hl]
        rw [← h1]
        exact h
      · intro _
        have h2 : (erase env dev).2 = sessionBeginTrace ++
            (eraseLoop env (List.range size)).2 := by
          rw [erase_of_loop_not_ok env dev size hp hl]
        rw [h2, finalReset_append, sessionBegin_finalReset]
        exact finalReset_of_no_setReset 0 _ (fun lv => eraseLoop_no_setReset env _ lv)

/-- Witness for the amended claim C1: a fully successful run ends with the
reset line deasserted, a run whose first address times out ends with it
asserted. -/
theorem erase_reset_deasserted_only_on_success_witness :
    finalReset 1 (erase envAllOk dev8).2 = 1 ∧
    finalReset 1 (erase envFailAll dev512).2 = 0 :=
  ⟨(erase_reset_deasserted_only_on_success envAllOk dev8).1 (by decide),
   (erase_reset_deasserted_only_on_success envFailAll dev512).2 (by decide)⟩

/-- Claim C2: when the poll verifier first fails at address `k` (all earlier
addresses confirming), the run writes exactly addresses `0..k`, one write
each in ascending order, nothing above `k`, and returns the failure `False`. -/
theorem erase_abort_exact_writes (env : Nat → PollRun) (dev : Device) (size k : Nat)
    (hp : parseHex dev.eeprom_size = some size) (hk : k < size)
    (hok : ∀ j, j < k → (wait_poll_eeprom 255 j (env j)).1 = Res.ok true)
    (hfail : (wait_poll_eeprom 255 k (env k)).1 = Res.ok false) :
    (erase env dev).1 = Res.ok false ∧
    writeAddrs (erase env dev).2 = List.range (k + 1) := by
  obtain ⟨h1, h2, _⟩ := erase_abort_full env dev size k hp hk hok hfail
  exact ⟨h1, h2⟩

/-- Witness for claim C2, the scenario named by the spec: 512-byte EEPROM,
address `0x50` = 80 never confirms; the run fails, having written exactly
addresses 0..80. -/
theorem erase_abort_exact_writes_witness :
    (erase (envFailAt 80) dev512).1 = Res.ok false ∧
    writeAddrs (erase (envFailAt 80) dev512).2 = List.range 81 :=
  erase_abort_exact_writes (envFailAt 80) dev512 512 80 (by decide) (by decide)
    (by decide) (by decide)

/-- Claim C6: every erase run starts with exactly the session-begin sequence,
in this order: reset asserted (level 0), the programming-enable transmit
`AC 53 00 00`, the 500 ms settle delay — all before any write command (the
first four trace events are these, and they contain no write). -/
theorem erase_session_begin_order (env : Nat → PollRun) (dev : Device) :
    (erase env dev).2.take 5 = sessionBeginTrace ∧
    sessionBeginTrace =
      [Event.setReset 0, Event.log LogLevel.info LogMsg.enablingMemAccess,
       Event.transmit enable_mem_access_cmd, Event.sleep 500,
       Event.log LogLevel.info LogMsg.erasingStart] ∧
    writeTransmits sessionBeginTrace = [] := by
  obtain ⟨x, hx⟩ := erase_trace_prefix env dev
  refine ⟨?_, rfl, rfl⟩
  rw [hx, show (5 : Nat) = sessionBeginTrace.length from rfl, List.take_left]

/-- Claim C7: when the device resolver returns `None`, `process` returns
`None` with an empty trace — no SPI programming command is issued, the reset
line is never touched, and the caller of `run` receives `None`. -/
theorem process_no_device_no_activity (env : Nat → PollRun) :
    process env none = (Res.ok none, []) ∧
    writeTransmits (process env none).2 = [] ∧
    readTransmits (process env none).2 = [] ∧
    (∀ lv, Event.setReset lv ∉ (process env none).2) ∧
    (run env true true none).1 = Res.ok none := by
  refine ⟨rfl, rfl, rfl, ?_, rfl⟩
  intro lv h
  simp [process] at h

/-- Claim C3: a successful run issues exactly one write per address, for
addresses `0 .. eeprom_size - 1` in ascending order, each in the wire format
`C0, addr_hi, addr_lo, FF`, and at least `eeprom_size` read commands. -/
theorem erase_success_write_read_commands (env : Nat → PollRun) (dev : Device)
    (size : Nat) (hp : parseHex dev.eeprom_size = some size) (_hpos : 0 < size)
    (hok : (erase env dev).1 = Res.ok true) :
    writeTransmits (erase env dev).2 =
      (List.range size).map (fun a => [192, a / 256, a % 256, 255]) ∧
    size ≤ (readTransmits (erase env dev).2).length := by
  have hloop : (eraseLoop env (List.range size)).1 = Res.ok true := by
    by_contra hne
    have h1 : (erase env dev).1 = (eraseLoop env (List.range size)).1 := by
      rw [erase_of_loop_not_ok env dev size hp hne]
    rw [h1] at hok
    exact hne hok
  obtain ⟨h1, h2, _⟩ := eraseLoop_ok_true_shape env (List.range size) hloop
  have htr : (erase env dev).2 = sessionBeginTrace ++
      (eraseLoop env (List.range size)).2 ++
      [Event.setReset 1, Event.log LogLevel.success LogMsg.eraseSuccess] := by
    rw [erase_of_loop_ok env dev size hp hloop]
  constructor
  · rw [htr, writeTransmits_append, writeTransmits_append,
      sessionBegin_writeTransmits, h1]
    simp [writeTransmits, writeEvData]
  · rw [List.length_range] at h2
    rw [htr, readTransmits_append, readTransmits_append, sessionBegin_readTransmits]
    simpa [readTransmits, readEvData] using h2

/-- Witness for claim C3: an 8-byte EEPROM with every poll confirming at
once gives 8 writes in order and 8 reads. -/
theorem erase_success_write_read_commands_witness :
    writeTransmits (erase envAllOk dev8).2 =
      (List.range 8).map (fun a => [192, a / 256, a % 256, 255]) ∧
    8 ≤ (readTransmits (erase envAllOk dev8).2).length :=
  erase_success_write_read_commands envAllOk dev8 8 (by decide) (by decide) (by decide)

/-- Claim C4: a poll whose very first read-back matches returns success after
exactly one transmit/receive pair, with no deadline evaluation at all; and in
general the byte comparison precedes the deadline test on every iteration (a
deadline evaluation occurs exactly once per non-matching receive). -/
theorem wait_poll_first_match_immediate (byte addr : Nat) (r : PollRun) (s : PollStep)
    (rest : List PollStep) (ha : addr < 65536) (hs : r.steps = s :: rest)
    (hm : s.readByte = byte) :
    wait_poll_eeprom byte addr r =
      (Res.ok true,
       [Event.transmit [160, addr / 256, addr % 256], Event.receive [byte]]) ∧
    (∀ b, Event.deadlineCheck b ∉ (wait_poll_eeprom byte addr r).2) ∧
    (∀ r2 : PollRun, deadlineCount (wait_poll_eeprom byte addr r2).2 =
      badReceiveCount byte (wait_poll_eeprom byte addr r2).2) := by
  have h1 : wait_poll_eeprom byte addr r =
      (Res.ok true,
       [Event.transmit [160, addr / 256, addr % 256], Event.receive [byte]]) := by
    rw [wait_poll_eeprom, hs]
    exact wait_poll_go_first_match byte addr (r.start + 10) s rest ha hm
  refine ⟨h1, ?_, ?_⟩
  · intro b hb
    rw [h1] at hb
    simp at hb
  · intro r2
    exact wait_poll_go_deadline_count byte addr (r2.start + 10) r2.steps

/-- Witness for claim C4: a first read-back of `0xFF` at address 0 succeeds
with a two-event trace and no deadline evaluation. -/
theorem wait_poll_first_match_immediate_witness :
    wait_poll_eeprom 255 0 pollRunMatch =
      (Res.ok true, [Event.transmit [160, 0, 0], Event.receive [255]]) :=
  (wait_poll_first_match_immediate 255 0 pollRunMatch ⟨255, 0⟩ [] (by decide) rfl rfl).1

/-- Claim C5: a poll whose read-backs never match returns the boolean `False`
(no exception) at the first deadline evaluation past `start + 10` seconds —
all earlier evaluations negative — and transmits only read commands
`A0, addr_hi, addr_lo`, never a write. -/
theorem wait_poll_timeout_returns_false (byte addr : Nat) (r : PollRun)
    (ha : addr < 65536)
    (hne : ∀ s ∈ r.steps, s.readByte ≠ byte)
    (hto : ∃ s ∈ r.steps, r.start + 10 < s.now) :
    (wait_poll_eeprom byte addr r).1 = Res.ok false ∧
    (∀ d, Event.transmit d ∈ (wait_poll_eeprom byte addr r).2 →
       d = [160, addr / 256, addr % 256]) ∧
    writeTransmits (wait_poll_eeprom byte addr r).2 = [] ∧
    ∃ t, (wait_poll_eeprom byte addr r).2 = t ++ [Event.deadlineCheck true] ∧
      ∀ b, Event.deadlineCheck b ∈ t → b = false := by
  obtain ⟨h1, t, ht, hdc⟩ :=
    wait_poll_go_never_match byte addr (r.start + 10) r.steps ha hne hto
  exact ⟨h1, fun d hd => wait_poll_transmits byte addr r d hd,
    wait_poll_writeTransmits byte addr r, t, ht, hdc⟩

/-- Witness for claim C5: two non-matching read-backs with the clock crossing
the 10-second deadline on the second one: the poll returns `False` and issued
no write command. -/
theorem wait_poll_timeout_returns_false_witness :
    (wait_poll_eeprom 255 3 pollRunTimeout).1 = Res.ok false ∧
    writeTransmits (wait_poll_eeprom 255 3 pollRunTimeout).2 = [] :=
  ⟨(wait_poll_timeout_returns_false 255 3 pollRunTimeout (by decide) (by decide)
      (by decide)).1,
   (wait_poll_timeout_returns_false 255 3 pollRunTimeout (by decide) (by decide)
      (by decide)).2.2.1⟩

/-- Claim C8 as stated is false on the code: the value the top-level caller
receives does not carry the failure kind or context.  Two aborts at different
addresses (3 and 5) return the identical bare `False`, and a no-device run
and an exception-failing run return the identical bare `None`. -/
theorem run_failure_value_not_structured :
    (run (envFailAt 3) true true (some dev8)).1 =
      (run (envFailAt 5) true true (some dev8)).1 ∧
    (run (envFailAt 3) true true (some dev8)).1 = Res.ok (some false) ∧
    (run envAllOk true true none).1 = (run envAllOk true true (some devBadHex)).1 ∧
    (run envAllOk true true none).1 = Res.ok none := by decide

/-- Claim C8 (amended): each failure kind is reported — not silently
swallowed — through the logger with its kind and context (the failing address
for a timeout, the exception kind for an exception), and no failure is
retried (an aborted sweep writes each attempted address exactly once); but
the caller of `run` only receives the unstructured values `False` (timeout)
or `None` (no device, or any caught exception). -/
theorem run_failures_logged_not_structured
    (envT envE : Nat → PollRun) (devT devE : Device) (nT kT : Nat) (e : PyExn)
    (hT1 : parseHex devT.eeprom_size = some nT) (hT2 : kT < nT)
    (hT3 : ∀ j, j < kT → (wait_poll_eeprom 255 j (envT j)).1 = Res.ok true)
    (hT4 : (wait_poll_eeprom 255 kT (envT kT)).1 = Res.ok false)
    (hE : (erase envE devE).1 = Res.exn e) :
    (run envT true true (some devT)).1 = Res.ok (some false) ∧
    Event.log LogLevel.error (LogMsg.timeoutAt kT) ∈ (run envT true true (some devT)).2 ∧
    writeAddrs (run envT true true (some devT)).2 = List.range (kT + 1) ∧
    (run envE true true (some devE)).1 = Res.ok none ∧
    Event.log LogLevel.error (LogMsg.exceptionLogged e) ∈
      (run envE true true (some devE)).2 ∧
    (run envT true true none).1 = Res.ok none := by
  obtain ⟨hA1, hA2, hA3⟩ := erase_abort_full envT devT nT kT hT1 hT2 hT3 hT4
  have hpT := process_of_erase_ok envT devT false hA1
  have hrT := run_eq_of_process_ok envT (some devT) (some false) (by rw [hpT])
  have hpE := process_of_erase_exn envE devE e hE
  have hrE := run_eq_of_process_exn envE (some devE) e (by rw [hpE])
  refine ⟨?_, ?_, ?_, ?_, ?_, rfl⟩
  · rw [hrT]
  · rw [hrT]
    have h2 : (process envT (some devT)).2 = Event.setReset 1 :: (erase envT devT).2 := by
      rw [hpT]
    rw [h2]
    exact List.mem_cons_of_mem _ hA3
  · rw [hrT]
    have h2 : (process envT (some devT)).2 = Event.setReset 1 :: (erase envT devT).2 := by
      rw [hpT]
    rw [h2, writeAddrs_cons_none _ _ (by simp [writeEvAddr]), hA2]
  · rw [hrE]
  · rw [hrE]
    exact List.mem_append_right _ (List.mem_singleton.mpr rfl)

/-- Witness for the amended claim C8: a timeout at address 3 returns `False`
and logs the failing address; a bad device profile raises, is caught, and the
caller receives `None`. -/
theorem run_failures_logged_not_structured_witness :
    (run (envFailAt 3) true true (some dev8)).1 = Res.ok (some false) ∧
    Event.log LogLevel.error (LogMsg.timeoutAt 3) ∈
      (run (envFailAt 3) true true (some dev8)).2 ∧
    (run envAllOk true true (some devBadHex)).1 = Res.ok none :=
  let h := run_failures_logged_not_structured (envFailAt 3) envAllOk dev8 devBadHex
    8 3 PyExn.valueError (by decide) (by decide) (by decide) (by decide) (by decide)
  ⟨h.1, h.2.1, h.2.2.2.1⟩

/-- Claim C9: a device profile whose EEPROM size parses beyond `0x10000`
makes the sweep raise `struct.error` at address 65536 after writing addresses
0..65535 (nothing rejects the size beforehand), and such a size can never
yield a successful erase, whatever the device does. -/
theorem erase_oversized_eeprom_raises (env : Nat → PollRun) (dev : Device) (n : Nat)
    (hp : parseHex dev.eeprom_size = some n) (hn : 65536 < n)
    (hok : ∀ a, a < 65536 → (wait_poll_eeprom 255 a (env a)).1 = Res.ok true) :
    (erase env dev).1 = Res.exn PyExn.structError ∧
    writeAddrs (erase env dev).2 = List.range 65536 ∧
    ∀ env2, (erase env2 dev).1 ≠ Res.ok true := by
  have hsplit := range_split n 65536 hn
  have hO := eraseLoop_oversize env (List.range 65536)
    ((List.range (n - (65536 + 1))).map (fun i => (65536 + 1) + i)) 65536 le_rfl
    (fun j hj => hok j (List.mem_range.mp hj))
  rw [← hsplit] at hO
  obtain ⟨hO1, hO2⟩ := hO
  have hne : (eraseLoop env (List.range n)).1 ≠ Res.ok true := by
    rw [hO1]
    simp
  refine ⟨?_, ?_, ?_⟩
  · have h1 : (erase env dev).1 = (eraseLoop env (List.range n)).1 := by
      rw [erase_of_loop_not_ok env dev n hp hne]
    rw [h1]
    exact hO1
  · have h2 : (erase env dev).2 = sessionBeginTrace ++
        (eraseLoop env (List.range n)).2 := by
      rw [erase_of_loop_not_ok env dev n hp hne]
    rw [h2, writeAddrs_append, sessionBegin_writeAddrs, List.nil_append, hO2]
  · intro env2
    have hmem : ∃ a ∈ List.range n, 65536 ≤ a :=
      ⟨65536, List.mem_range.mpr hn, le_rfl⟩
    have h5 := eraseLoop_mem_oversize_not_ok env2 (List.range n) hmem
    intro hcontra
    apply h5
    by_cases hl : (eraseLoop env2 (List.range n)).1 = Res.ok true
    · exact hl
    · exfalso
      have h1 : (erase env2 dev).1 = (eraseLoop env2 (List.range n)).1 := by
        rw [erase_of_loop_not_ok env2 dev n hp hl]
      rw [h1] at hcontra
      exact hl hcontra

/-- Witness for claim C9: the `0x20000`-byte device profile with an
always-confirming poll environment makes the erase raise `struct.error`. -/
theorem erase_oversized_eeprom_raises_witness :
    (erase envAllOk devBig).1 = Res.exn PyExn.structError :=
  (erase_oversized_eeprom_raises envAllOk devBig 131072 (by decide) (by decide)
    (fun a ha => by
      simp [envAllOk, wait_poll_eeprom, wait_poll_go, packBE16_of_lt a ha])).1

/-- Claim C10: with `return_value=True` the caller can tell the three
terminal values apart: `None` for no device or a caught exception, `False`
for a sweep aborted by a timeout, `True` exactly for a fully confirmed sweep
(and `True` implies every address below the parsed size polled positively). -/
theorem run_terminal_values_distinct
    (envS envT envE : Nat → PollRun) (devS devT devE : Device) (nS nT kT : Nat)
    (hS1 : parseHex devS.eeprom_size = some nS) (hS2 : nS ≤ 65536)
    (hS3 : ∀ a, a < nS → (wait_poll_eeprom 255 a (envS a)).1 = Res.ok true)
    (hT1 : parseHex devT.eeprom_size = some nT) (hT2 : kT < nT)
    (hT3 : ∀ j, j < kT → (wait_poll_eeprom 255 j (envT j)).1 = Res.ok true)
    (hT4 : (wait_poll_eeprom 255 kT (envT kT)).1 = Res.ok false)
    (hE : parseHex devE.eeprom_size = none) :
    (run envE true true none).1 = Res.ok none ∧
    (run envE true true (some devE)).1 = Res.ok none ∧
    (run envT true true (some devT)).1 = Res.ok (some false) ∧
    (run envS true true (some devS)).1 = Res.ok (some true) ∧
    (∀ env dev n, parseHex dev.eeprom_size = some n →
       (run env true true (some dev)).1 = Res.ok (some true) →
       ∀ a, a < n → (wait_poll_eeprom 255 a (env a)).1 = Res.ok true) ∧
    ((Res.ok (some false) : Res (Option Bool)) ≠ Res.ok none ∧
     (Res.ok (some true) : Res (Option Bool)) ≠ Res.ok none ∧
     (Res.ok (some true) : Res (Option Bool)) ≠ Res.ok (some false)) := by
  refine ⟨rfl, ?_, ?_, ?_, ?_, by simp, by simp, by simp⟩
  · have hearly : (erase envE devE).1 = Res.exn PyExn.valueError := by
      rw [erase_of_parse_none envE devE hE]
    have hpe := process_of_erase_exn envE devE PyExn.valueError hearly
    rw [run_eq_of_process_exn envE (some devE) PyExn.valueError (by rw [hpe])]
  · obtain ⟨hA1, _, _⟩ := erase_abort_full envT devT nT kT hT1 hT2 hT3 hT4
    have hpT := process_of_erase_ok envT devT false hA1
    rw [run_eq_of_process_ok envT (some devT) (some false) (by rw [hpT])]
  · have hloop : (eraseLoop envS (List.range nS)).1 = Res.ok true :=
      eraseLoop_all_ok envS (List.range nS)
        (fun a haS => Nat.lt_of_lt_of_le (List.mem_range.mp haS) hS2)
        (fun a haS => hS3 a (List.mem_range.mp haS))
    have hS : (erase envS devS).1 = Res.ok true := by
      rw [erase_of_loop_ok envS devS nS hS1 hloop]
    have hpS := process_of_erase_ok envS devS true hS
    rw [run_eq_of_process_ok envS (some devS) (some true) (by rw [hpS])]
  · intro env dev n hpn hr a han
    exact (eraseLoop_ok_true_shape env (List.range n)
      (run_true_inv env dev n hpn hr)).2.2 a (List.mem_range.mpr han)

/-- Witness for claim C10: the three terminal values realised concretely —
`None` for no device and for a caught exception, `False` for a timeout at
address 3, `True` for a fully confirmed 8-byte sweep. -/
theorem run_terminal_values_distinct_witness :
    (run envAllOk true true none).1 = Res.ok none ∧
    (run envAllOk true true (some devBadHex)).1 = Res.ok none ∧
    (run (envFailAt 3) true true (some dev8)).1 = Res.ok (some false) ∧
    (run envAllOk true true (some dev8)).1 = Res.ok (some true) :=
  let h := run_terminal_values_distinct envAllOk (envFailAt 3) envAllOk
    dev8 dev8 devBadHex 8 8 3 (by decide) (by decide) (by decide) (by decide)
    (by decide) (by decide) (by decide) (by decide)
  ⟨h.1, h.2.1, h.2.2.1, h.2.2.2.1⟩

end EepromErase
